import Mathlib

/-!
Verification development for the Python-terminal command dispatch pipeline.

This file shallowly embeds the core of the repository (command registry,
command processor, natural-language translator, history manager, terminal
orchestrator) as executable Lean definitions, and proves the frozen claims
about them.

Modelling conventions:
* Python dictionaries are association lists; insertion prepends the new
  binding, which gives the same lookup semantics (last write wins).
* Python floats used for wall-clock time are modelled as rationals.
* `time.time()` is modelled by a clock value threaded through `process`;
  the clock advances by per-stage durations (a `StageTimes` record) as the
  corresponding piece of code runs.
* Raising an exception is modelled with `Except`: `.error` carries the
  exception message.
* ASCII strings only; `str.strip`/`str.lower`/`str.split` are modelled on
  the ASCII whitespace set, which covers every string in the claims.
-/

/-- The characters Python `str.strip()` / `str.split()` treat as whitespace
(ASCII fragment). -/
def pyIsSpace (c : Char) : Bool :=
  c = ' ' || c = '\t' || c = '\n' || c = '\r' || c = Char.ofNat 11 || c = Char.ofNat 12

/-- Python `str.strip()`: drop leading and trailing whitespace. -/
def pyStrip (s : String) : String :=
  String.mk (((s.toList.dropWhile pyIsSpace).reverse.dropWhile pyIsSpace).reverse)

/-- Python `str.lower()` (ASCII fragment). -/
def pyLower (s : String) : String :=
  String.mk (s.toList.map Char.toLower)

/-- Helper for `pySplitWs`: accumulates the current word (reversed). -/
def pySplitWsAux : List Char → List Char → List String
  | [], [] => []
  | [], acc => [String.mk acc.reverse]
  | c :: cs, acc =>
      if pyIsSpace c then
        match acc with
        | [] => pySplitWsAux cs []
        | _ :: _ => String.mk acc.reverse :: pySplitWsAux cs []
      else pySplitWsAux cs (c :: acc)

/-- Python `str.split()` with no separator: split on whitespace runs,
dropping empty pieces. -/
def pySplitWs (s : String) : List String :=
  pySplitWsAux s.toList []

/-- Python `str.startswith(w)`. -/
def pyStartsWith (s w : String) : Bool :=
  w.toList.isPrefixOf s.toList

/-- Python membership test `sub in s` on strings: substring containment. -/
def strContains (s sub : String) : Bool :=
  s.toList.tails.any (fun t => sub.toList.isPrefixOf t)

/-- Helper for `pyReplace`: replace every non-overlapping occurrence of
`o :: os` by `new`, scanning left to right.  After emitting a
replacement, `skip` counts the remaining matched characters still to be
consumed (structural recursion on the scanned list). -/
def replaceAux (o : Char) (os new : List Char) : List Char → Nat → List Char
  | [], _ => []
  | _ :: rest, skip + 1 => replaceAux o os new rest skip
  | c :: rest, 0 =>
      if (o :: os).isPrefixOf (c :: rest) then
        new ++ replaceAux o os new rest os.length
      else
        c :: replaceAux o os new rest 0

/-- Python `s.replace(old, new)` (for nonempty `old`, the only case the
translator uses). -/
def pyReplace (s old new : String) : String :=
  match old.toList with
  | [] => s
  | o :: os => String.mk (replaceAux o os new.toList s.toList 0)

/-- Python list slice `xs[-k:]`: the last `k` elements when `k > 0`; when
`k = 0` the slice `xs[-0:]` is `xs[0:]`, the whole list. -/
def pyLastSlice (xs : List α) (k : Nat) : List α :=
  if k = 0 then xs else xs.drop (xs.length - k)

/-- Python dictionary lookup `d.get(key)` over an association list. -/
def dictGet : List (String × α) → String → Option α
  | [], _ => none
  | (k, v) :: rest, key => if k = key then some v else dictGet rest key

/-! ## `shlex.split` (POSIX mode), used by `CommandProcessor._parse_command`

The tokenizer of the Python standard library, restricted to the features
`shlex.split` exercises here: whitespace splitting, single and double
quotes, backslash escapes (inside double quotes a backslash only escapes
the backslash itself and the double quote).  Unbalanced quoting raises
`ValueError("No closing quotation")`; a trailing backslash raises
`ValueError("No escaped character")`. -/

/-- The double-quote character. -/
def cQuoteD : Char := Char.ofNat 34

/-- The single-quote character. -/
def cQuoteS : Char := Char.ofNat 39

/-- The backslash character. -/
def cBackslash : Char := Char.ofNat 92

/-- The whitespace set `shlex.whitespace`. -/
def shlexWhitespace (c : Char) : Bool :=
  c = ' ' || c = '\t' || c = '\r' || c = '\n'

/-- States of the `shlex` token reader (POSIX mode). -/
inductive ShlexState where
  | ws        -- between tokens
  | word      -- inside an unquoted word
  | squote    -- inside single quotes
  | dquote    -- inside double quotes
  | escWord   -- just saw a backslash outside quotes
  | escDquote -- just saw a backslash inside double quotes
  deriving DecidableEq

/-- The `shlex` reader loop.  `tok` is the token being built, `q` records
whether any part of it was quoted (so that empty quoted tokens are kept),
`acc` the tokens emitted so far. -/
def shlexGo : List Char → ShlexState → List Char → Bool → List (List Char) →
    Except String (List (List Char))
  | [], .ws, _, _, acc => .ok acc
  | [], .word, tok, q, acc => .ok (if tok.isEmpty && !q then acc else acc ++ [tok])
  | [], .squote, _, _, _ => .error "No closing quotation"
  | [], .dquote, _, _, _ => .error "No closing quotation"
  | [], .escWord, _, _, _ => .error "No escaped character"
  | [], .escDquote, _, _, _ => .error "No escaped character"
  | c :: cs, .ws, tok, q, acc =>
      if shlexWhitespace c then shlexGo cs .ws tok q acc
      else if c = cQuoteS then shlexGo cs .squote tok true acc
      else if c = cQuoteD then shlexGo cs .dquote tok true acc
      else if c = cBackslash then shlexGo cs .escWord tok q acc
      else shlexGo cs .word (tok ++ [c]) q acc
  | c :: cs, .word, tok, q, acc =>
      if shlexWhitespace c then
        shlexGo cs .ws [] false (if tok.isEmpty && !q then acc else acc ++ [tok])
      else if c = cQuoteS then shlexGo cs .squote tok true acc
      else if c = cQuoteD then shlexGo cs .dquote tok true acc
      else if c = cBackslash then shlexGo cs .escWord tok q acc
      else shlexGo cs .word (tok ++ [c]) q acc
  | c :: cs, .squote, tok, _, acc =>
      if c = cQuoteS then shlexGo cs .word tok true acc
      else shlexGo cs .squote (tok ++ [c]) true acc
  | c :: cs, .dquote, tok, _, acc =>
      if c = cQuoteD then shlexGo cs .word tok true acc
      else if c = cBackslash then shlexGo cs .escDquote tok true acc
      else shlexGo cs .dquote (tok ++ [c]) true acc
  | c :: cs, .escWord, tok, q, acc => shlexGo cs .word (tok ++ [c]) q acc
  | c :: cs, .escDquote, tok, q, acc =>
      if c = cBackslash || c = cQuoteD then shlexGo cs .dquote (tok ++ [c]) q acc
      else shlexGo cs .dquote (tok ++ [cBackslash, c]) q acc

/-- Model of `shlex.split(s)`: either the token list or the `ValueError` message. -/
def shlexSplit (s : String) : Except String (List String) :=
  (shlexGo s.toList .ws [] false []).map (List.map String.mk)

example : shlexSplit "echo \x22a b\x22 c" = .ok ["echo", "a b", "c"] := by rfl
example : shlexSplit "echo \x22a" = .error "No closing quotation" := by rfl
example : shlexSplit "" = .ok [] := by rfl

/-! ## Core data models (`python_terminal/core/models.py`) -/

/-- Model of `CommandResult` (models.py).  Python defaults `error_message=None`,
`exit_code=0`, `execution_time=0.0` are written out explicitly at every
construction site. -/
structure CommandResult where
  success : Bool
  output : String
  error_message : Option String
  exit_code : Int
  execution_time : Rat
  deriving DecidableEq

/-- Model of `ExecutionContext` (models.py).  Paths are plain strings. -/
structure ExecutionContext where
  current_directory : String
  environment_variables : List (String × String)
  user_id : String
  session_id : String
  history : List String
  deriving DecidableEq

/-- Model of `CommandHistoryEntry` (models.py).  `datetime.now()` timestamps are
abstract rationals supplied by the caller. -/
structure CommandHistoryEntry where
  command : String
  timestamp : Rat
  execution_time : Rat
  success : Bool
  working_directory : String
  deriving DecidableEq

/-- Model of `BaseCommand` (models.py): the handler capability set the processor
uses.  `execute` may raise (`.error msg` models an uncaught exception
carrying `str(e) = msg`) and may mutate the shared context. -/
structure BaseCommand where
  validate_args : List String → Bool
  execute : List String → ExecutionContext →
    Except String (CommandResult × ExecutionContext)

/-! ## Command registry (`python_terminal/core/command_registry.py`) -/

/-- Model of `CommandRegistry`: a name→handler dictionary and an alias→name
dictionary.  Polymorphic in the handler type so that registry facts can be
stated independently of handler details. -/
structure CommandRegistry (H : Type) where
  commands : List (String × H)
  aliases : List (String × String)

/-- Model of `CommandRegistry.register(name, handler, aliases)`: insert the handler
under `name` and map each alias to `name` (dictionary assignment is
modelled by prepending the binding). -/
def CommandRegistry.register (r : CommandRegistry H) (name : String) (handler : H)
    (aliases : List String) : CommandRegistry H :=
  { commands := (name, handler) :: r.commands
    aliases := aliases.foldl (fun m a => (a, name) :: m) r.aliases }

/-- Model of `CommandRegistry.get_handler`: the token is looked up as an alias
first (`self.aliases.get(command_name, command_name)`), then the resulting
name as a command; raises `CommandNotFoundError` otherwise, modelled as
`.error` with the message text (the Python message quotes the name). -/
def CommandRegistry.get_handler (r : CommandRegistry H) (command_name : String) :
    Except String H :=
  let actual_name := (dictGet r.aliases command_name).getD command_name
  match dictGet r.commands actual_name with
  | some h => .ok h
  | none => .error ("Command " ++ command_name ++ " not found")

/-- Model of `CommandRegistry.command_exists`: non-raising existence check, same
resolution order as `get_handler`. -/
def CommandRegistry.command_exists (r : CommandRegistry H) (command_name : String) : Bool :=
  let actual_name := (dictGet r.aliases command_name).getD command_name
  (dictGet r.commands actual_name).isSome

/-! ## Natural-language translator (`python_terminal/nlp/processor.py`)

The rule patterns of `SimpleNLPProcessor` are Python regular expressions
built from a small feature set: literal text, `(?:...)` groups, `(...)`
capturing groups, ordered alternation `|`, the greedy option `?`, and the
greedy repetitions `(.+)` / `(\d+)` whose body is a single-character
class.  `Pat` is exactly that feature set; each pattern string of the
source is transcribed into a `Pat` below, in source order.  The matcher
implements the leftmost, greedy, backtracking semantics of `re.match`
(a prefix match: the pattern need not reach the end of the text). -/

/-- Regular-expression fragment used by the translator rules. -/
inductive Pat where
  | lit : String → Pat
  | seq : Pat → Pat → Pat
  | alt : Pat → Pat → Pat
  | opt : Pat → Pat
  | plus : (Char → Bool) → Pat
  | group : Pat → Pat

/-- The class of `.` in a pattern: any character except newline. -/
def dotClass (c : Char) : Bool := c ≠ Char.ofNat 10

/-- Greedy backtracking for `plus`: try consuming `n+1` characters first,
then fewer, never zero. -/
def dropTry (cs : List Char) (k : List Char → Option α) : Nat → Option α
  | 0 => none
  | n + 1 => k (cs.drop (n + 1)) <|> dropTry cs k n

/-- Backtracking matcher in continuation style.  `gs` is the list of
captured groups so far (the rule catalogue has no nested capturing
groups, so appending at group exit reproduces Python's numbering).
Alternatives are tried in source order and options / repetitions are
greedy, matching `re` semantics. -/
def matchPat : Pat → List Char → List String → (List Char → List String → Option α) →
    Option α
  | .lit s, cs, gs, k =>
      if s.toList.isPrefixOf cs then k (cs.drop s.toList.length) gs else none
  | .seq p q, cs, gs, k => matchPat p cs gs (fun cs1 gs1 => matchPat q cs1 gs1 k)
  | .alt p q, cs, gs, k => matchPat p cs gs k <|> matchPat q cs gs k
  | .opt p, cs, gs, k => matchPat p cs gs k <|> k cs gs
  | .plus f, cs, gs, k =>
      dropTry cs (fun cs1 => k cs1 gs) (cs.takeWhile f).length
  | .group p, cs, gs, k =>
      matchPat p cs gs
        (fun cs1 gs1 => k cs1 (gs1 ++ [String.mk (cs.take (cs.length - cs1.length))]))

/-- Model of `re.match(pattern, query)`: anchored at the start only; returns the
captured groups on success. -/
def reMatch (p : Pat) (s : String) : Option (List String) :=
  matchPat p s.toList [] (fun _ gs => some gs)

/-- The fragment `(.+)`: a greedy capturing group of arbitrary text. -/
def grpAny : Pat := .group (.plus dotClass)

/-- The fragment `(\d+)`: a greedy capturing group of digits. -/
def grpDigits : Pat := .group (.plus Char.isDigit)

/-- An optional literal, the `(?:s )?` style of fragment. -/
def pOpt (s : String) : Pat := .opt (.lit s)

/-- Two-way literal alternation. -/
def pAlt2 (a b : String) : Pat := .alt (.lit a) (.lit b)

/-- Three-way literal alternation. -/
def pAlt3 (a b c : String) : Pat := .alt (.lit a) (.alt (.lit b) (.lit c))

/-- Concatenation of a pattern list. -/
def pSeq (ps : List Pat) : Pat := ps.foldr .seq (.lit "")

/-- The ordered rule catalogue `SimpleNLPProcessor.patterns`: each entry
transcribes one `(regex, template)` pair of the source, in source order.
`\x27` is the single-quote character appearing in the `what's` rules. -/
def SimpleNLPProcessor.patterns : List (Pat × String) :=
  [ -- Directory operations
    (pSeq [.lit "create ", pOpt "a ", pOpt "new ", pAlt2 "folder" "directory",
           .lit " ", .opt (pAlt2 "called " "named "), grpAny], "mkdir \\1"),
    (pSeq [.lit "make ", pOpt "a ", pOpt "new ", pAlt2 "folder" "directory",
           .lit " ", .opt (pAlt2 "called " "named "), grpAny], "mkdir \\1"),
    (pSeq [.lit "go to ", pOpt "the ", pAlt2 "folder" "directory", .lit " ", grpAny],
      "cd \\1"),
    (pSeq [.lit "change to ", pOpt "the ", pAlt2 "folder" "directory", .lit " ", grpAny],
      "cd \\1"),
    (pSeq [.lit "navigate to ", grpAny], "cd \\1"),
    -- File operations
    (pSeq [.lit "show ", pOpt "me ", pOpt "the ", .lit "content", pOpt "s",
           .lit " of ", pOpt "the ", .lit "file ", grpAny], "cat \\1"),
    (pSeq [.lit "display ", pOpt "the ", .lit "file ", grpAny], "cat \\1"),
    (pSeq [.lit "read ", pOpt "the ", .lit "file ", grpAny], "cat \\1"),
    (pSeq [.lit "copy ", pOpt "the ", .lit "file ", grpAny, .lit " to ", grpAny],
      "cp \\1 \\2"),
    (pSeq [.lit "move ", pOpt "the ", .lit "file ", grpAny, .lit " ",
           pAlt2 "to" "into", .lit " ", grpAny], "mv \\1 \\2"),
    (pSeq [.lit "rename ", pOpt "the ", .lit "file ", grpAny, .lit " to ", grpAny],
      "mv \\1 \\2"),
    (pSeq [.lit "delete ", pOpt "the ", .lit "file ", grpAny], "rm \\1"),
    (pSeq [.lit "remove ", pOpt "the ", .lit "file ", grpAny], "rm \\1"),
    -- Listing operations
    (pSeq [.lit "show ", pOpt "me ", pOpt "all ", pOpt "the ", .lit "file", pOpt "s",
           .opt (pSeq [.lit " in ", pOpt "the ", pOpt "current ",
                       pAlt2 "folder" "directory"])], "ls"),
    (pSeq [.lit "list ", pOpt "all ", pOpt "the ", .lit "file", pOpt "s",
           .opt (pSeq [.lit " in ", pOpt "the ", pOpt "current ",
                       pAlt2 "folder" "directory"])], "ls"),
    (pSeq [.lit "what", pAlt2 "\x27s" " is", .lit " in ", pAlt2 "this" "the current",
           .lit " ", pAlt2 "folder" "directory"], "ls"),
    (pSeq [.lit "show ", pOpt "me ", pOpt "the ", .lit "files in ", grpAny], "ls \\1"),
    (pSeq [.lit "list ", pOpt "the ", .lit "files in ", grpAny], "ls \\1"),
    -- Location operations
    (pSeq [.lit "where am i", pOpt "?"], "pwd"),
    (pSeq [.lit "what", pAlt2 "\x27s" " is", .lit " ", pOpt "my ", .lit "current ",
           pAlt3 "folder" "directory" "location", pOpt "?"], "pwd"),
    (pSeq [.lit "show ", pOpt "me ", pOpt "my ", .lit "current ",
           pAlt3 "folder" "directory" "location"], "pwd"),
    -- Search operations
    (pSeq [.lit "find ", pOpt "all ", .lit "file", pOpt "s", .lit " ",
           .opt (pAlt2 "called " "named "), grpAny], "find . -name \\1"),
    (pSeq [.lit "search for ", .opt (pSeq [.lit "file", pOpt "s", .lit " "]),
           .opt (pAlt2 "called " "named "), grpAny], "find . -name \\1"),
    (pSeq [.lit "look for ", grpAny, .lit " in ", pOpt "the ", .lit "file ", grpAny],
      "grep \\1 \\2"),
    (pSeq [.lit "search for ", grpAny, .lit " in ", pOpt "the ", .lit "file ", grpAny],
      "grep \\1 \\2"),
    -- System operations
    (pSeq [.lit "show ", pOpt "me ", pOpt "all ", pOpt "running ", .lit "processes"],
      "ps"),
    (pSeq [.lit "list ", pOpt "all ", pOpt "running ", .lit "processes"], "ps"),
    (pSeq [.lit "what processes are running", pOpt "?"], "ps"),
    (pSeq [.lit "show ", pOpt "me ", .lit "system ",
           pAlt3 "info" "information" "resources"], "top"),
    (pSeq [.lit "kill ", pOpt "the ", .lit "process ", grpDigits], "kill \\1"),
    (pSeq [.lit "terminate ", pOpt "the ", .lit "process ", grpDigits], "kill \\1"),
    -- Help operations
    (pSeq [.lit "help", pOpt " me"], "help"),
    (pSeq [.lit "what can ", pAlt2 "i" "you", .lit " do", pOpt "?"], "help"),
    (pSeq [.lit "show ", pOpt "me ", pOpt "available ", .lit "commands"], "help"),
    -- Echo operations
    (pSeq [.lit "say ", grpAny], "echo \\1"),
    (pSeq [.lit "print ", grpAny], "echo \\1") ]

/-- Template instantiation: for each captured group `i` (numbered from 1)
replace the literal text `\i` in the template by the stripped group. -/
def applyTemplate (template : String) (groups : List String) : String :=
  (List.enumFrom 1 groups).foldl
    (fun cmd p => pyReplace cmd (String.mk [cBackslash] ++ toString p.1) (pyStrip p.2))
    template

/-- First-match-wins over an ordered rule list. -/
def firstRule : List (Pat × String) → String → Option String
  | [], _ => none
  | (p, t) :: rest, q =>
      match reMatch p q with
      | some gs => some (applyTemplate t gs)
      | none => firstRule rest q

/-- Model of `SimpleNLPProcessor.process_natural_language`: strip and lower-case
the query, then return the instantiated template of the first matching
rule, or `none`.  (The source's `try/except` around substitution is dead
for this catalogue: substitution is total.) -/
def SimpleNLPProcessor.process_natural_language (query : String) : Option String :=
  firstRule SimpleNLPProcessor.patterns (pyLower (pyStrip query))

example : SimpleNLPProcessor.process_natural_language "create a new folder called logs" =
    some "mkdir logs" := by rfl
example : SimpleNLPProcessor.process_natural_language "where am i?" = some "pwd" := by rfl
example : SimpleNLPProcessor.process_natural_language "asdkjhasd" = none := by rfl

/-- Interrogative words tested by `is_natural_language`. -/
def SimpleNLPProcessor.question_words : List String :=
  ["what", "where", "how", "why", "when", "who", "which"]

/-- Conversational phrase markers tested by `is_natural_language`. -/
def SimpleNLPProcessor.nl_phrases : List String :=
  ["show me", "can you", "i want to", "please", "help me"]

/-- Common function words tested by `is_natural_language`. -/
def SimpleNLPProcessor.function_words : List String :=
  ["the", "a", "an", "to", "in", "of"]

/-- Model of `SimpleNLPProcessor.is_natural_language`: heuristic gate on the
stripped, lower-cased text (the source rebinds `text = text.strip().lower()`,
inlined here).  Word tests are Python's `startswith` / substring `in`,
exactly as in the source. -/
def SimpleNLPProcessor.is_natural_language (text : String) : Bool :=
  if SimpleNLPProcessor.question_words.any
      (fun w => pyStartsWith (pyLower (pyStrip text)) w) then true
  else if SimpleNLPProcessor.nl_phrases.any
      (fun p => strContains (pyLower (pyStrip text)) p) then true
  else if strContains (pyLower (pyStrip text)) " " &&
      SimpleNLPProcessor.function_words.any
        (fun w => strContains (pyLower (pyStrip text)) w) then true
  else false

example : SimpleNLPProcessor.is_natural_language "where am i?" = true := by rfl
example : SimpleNLPProcessor.is_natural_language "frobnicate" = false := by rfl
example : SimpleNLPProcessor.is_natural_language "" = false := by rfl

/-! ## Command processor (`python_terminal/core/command_processor.py`)

`process` samples `time.time()` at entry (`start_time`, line 42 of the
source — before the NLP pass) and computes `execution_time` as the clock
difference at each return site.  The wall clock is modelled by a rational
threaded through the pipeline; a `StageTimes` record gives the amount of
wall time each stage of this invocation consumes. -/

/-- Wall-clock durations of the pipeline stages for one `process`
invocation.  `translate` is charged when the natural-language pass runs
(detection succeeded and translation is attempted); `execute` is the time
taken by the handler call, whether it returns or raises. -/
structure StageTimes where
  translate : Rat
  tokenize : Rat
  resolve : Rat
  validate : Rat
  execute : Rat
  deriving DecidableEq

/-- Model of `CommandProcessor`: holds the registry and, when `config.nlp_enabled`
is set, an NLP processor instance (`nlp_processor` is its presence flag;
the instance itself is the fixed pure translator above). -/
structure CommandProcessor where
  command_registry : CommandRegistry BaseCommand
  nlp_processor : Bool

/-- Model of `CommandProcessor._parse_command`: `shlex.split` on the stripped
input, falling back to naive whitespace splitting when `shlex` raises
`ValueError`.  Total by construction. -/
def CommandProcessor.parse_command (input_text : String) : List String :=
  match shlexSplit (pyStrip input_text) with
  | .ok parts => parts
  | .error _ => pySplitWs (pyStrip input_text)

/-- The text dispatched downstream of the NLP pass (lines 46–51 of
`process`): the translation when the pass runs and matches, the raw input
otherwise. -/
def CommandProcessor.processedInput (cp : CommandProcessor) (input_text : String) : String :=
  if cp.nlp_processor && SimpleNLPProcessor.is_natural_language input_text then
    match SimpleNLPProcessor.process_natural_language input_text with
    | some r => r
    | none => input_text
  else input_text

/-- Model of `CommandProcessor.process`: the per-invocation pipeline.  Returns the
result, the (possibly handler-mutated) context, and the clock at return.
Every return site sets `execution_time` to the clock difference from
`start_time`, exactly as the source does; the outer `try/except` of the
source corresponds to the `.error` branch of the handler call, the only
failing operation in the body. -/
def CommandProcessor.process (cp : CommandProcessor) (st : StageTimes)
    (input_text : String) (context : ExecutionContext) (clock : Rat) :
    CommandResult × ExecutionContext × Rat :=
  let start_time := clock
  let nlpRan := cp.nlp_processor && SimpleNLPProcessor.is_natural_language input_text
  let clock1 := if nlpRan then clock + st.translate else clock
  let clock2 := clock1 + st.tokenize
  match CommandProcessor.parse_command (cp.processedInput input_text) with
  | [] => (⟨true, "", none, 0, clock2 - start_time⟩, context, clock2)
  | command_name :: args =>
    let clock3 := clock2 + st.resolve
    match cp.command_registry.get_handler command_name with
    | .error _ =>
        (⟨false, "",
          some ("Command " ++ command_name ++ " not found. Type help for available commands."),
          127, clock3 - start_time⟩, context, clock3)
    | .ok handler =>
      let clock4 := clock3 + st.validate
      if !handler.validate_args args then
        (⟨false, "",
          some ("Invalid arguments for " ++ command_name ++ ". Use help " ++
            command_name ++ " for usage."),
          1, clock4 - start_time⟩, context, clock4)
      else
        let clock5 := clock4 + st.execute
        match handler.execute args context with
        | .ok (result, context2) =>
            ({ result with execution_time := clock5 - start_time }, context2, clock5)
        | .error e =>
            (⟨false, "", some ("Error executing command: " ++ e), 1,
              clock5 - start_time⟩, context, clock5)

/-! ## History manager (`python_terminal/core/history_manager.py`) -/

/-- Model of `HistoryManager`: the in-memory entry list and the configured cap
(`config.get_history_size()`, default 1000).  File persistence is
best-effort I/O outside the model. -/
structure HistoryManager where
  history : List CommandHistoryEntry
  max_history : Nat
  deriving DecidableEq

/-- Model of `HistoryManager.add_command(command, execution_time=0.0, success=True)`:
append an entry, then trim to the last `max_history` entries when the cap
is exceeded (`self.history[-self.max_history:]`).  `now` and `cwd` model
the ambient `datetime.now()` and `Path.cwd()` reads. -/
def HistoryManager.add_command (m : HistoryManager) (command : String)
    (execution_time : Rat) (success : Bool) (now : Rat) (cwd : String) : HistoryManager :=
  let entry : CommandHistoryEntry := ⟨command, now, execution_time, success, cwd⟩
  let h := m.history ++ [entry]
  { m with history := if h.length > m.max_history then pyLastSlice h m.max_history else h }

/-! ## Terminal orchestrator (`python_terminal/core/terminal_core.py`) -/

/-- Model of the `TerminalCore` state: the session's history manager and execution
context (the registry and processor are fixed collaborators). -/
structure TerminalCore where
  history_manager : HistoryManager
  context : ExecutionContext

/-- Model of `TerminalCore.execute_command`: append the raw input to both
histories, then delegate to the processor; the surrounding `try/except`
converts any fault into a failure result with the generic internal-error
message and exit code 1 (with `CommandResult` defaults, so
`execution_time = 0`).  The processor call — the one fallible step of the
body — is a parameter `proc` so that the conversion holds for any fault
it may raise; the two history appends are total. -/
def TerminalCore.execute_command
    (proc : String → ExecutionContext → Except String (CommandResult × ExecutionContext))
    (now : Rat) (cwd : String) (tc : TerminalCore) (command_input : String) :
    CommandResult × TerminalCore :=
  let hm := tc.history_manager.add_command command_input 0 true now cwd
  let ctx := { tc.context with history := tc.context.history ++ [command_input] }
  match proc command_input ctx with
  | .ok (result, ctx2) => (result, ⟨hm, ctx2⟩)
  | .error e =>
      (⟨false, "", some ("Internal error: " ++ e), 1, 0⟩, ⟨hm, ctx⟩)

/-! ## Spec-side definition for the natural-language gate (claim C9) -/

/-- The claim's characterisation of `looksNaturalLanguage`, written from
the spec's words: the trimmed, lower-cased text starts with an
interrogative word, or contains a conversational phrase marker, or
contains a space together with at least one common function word (word
tests read, as in the spec's source list, as prefix / substring tests). -/
def looksNaturalLanguageSpec (text : String) : Prop :=
  (∃ w ∈ SimpleNLPProcessor.question_words,
      w.toList <+: (pyLower (pyStrip text)).toList) ∨
  (∃ p ∈ SimpleNLPProcessor.nl_phrases,
      p.toList <:+: (pyLower (pyStrip text)).toList) ∨
  (" ".toList <:+: (pyLower (pyStrip text)).toList ∧
    ∃ w ∈ SimpleNLPProcessor.function_words,
      w.toList <:+: (pyLower (pyStrip text)).toList)

/-! ## Helper lemmas -/

/-- Lemma: `pyStartsWith` decides the prefix relation. -/
theorem pyStartsWith_iff (s w : String) :
    pyStartsWith s w = true ↔ w.toList <+: s.toList := by
  simp [pyStartsWith, List.isPrefixOf_iff_prefix]

/-- Lemma: `strContains` decides substring containment. -/
theorem strContains_iff (s sub : String) :
    strContains s sub = true ↔ sub.toList <:+: s.toList := by
  simp only [strContains, List.any_eq_true, List.isPrefixOf_iff_prefix, List.mem_tails]
  constructor
  · rintro ⟨t, hsuf, hpre⟩
    exact List.infix_iff_prefix_suffix.mpr ⟨t, hpre, hsuf⟩
  · intro h
    rcases List.infix_iff_prefix_suffix.mp h with ⟨t, hpre, hsuf⟩
    exact ⟨t, hsuf, hpre⟩

/-- The entry appended by `add_command` always survives the trim as the
most recent element, whatever the cap (`xs[-k:]` keeps a suffix ending in
the new entry for every `k`). -/
theorem add_command_getLast (m : HistoryManager) (command : String)
    (execution_time : Rat) (success : Bool) (now : Rat) (cwd : String) :
    ((m.add_command command execution_time success now cwd).history).getLast? =
      some ⟨command, now, execution_time, success, cwd⟩ := by
  simp only [HistoryManager.add_command, pyLastSlice]
  split
  · split
    · exact List.getLast?_concat _
    · next hk =>
        have hle : (m.history ++ [(⟨command, now, execution_time, success, cwd⟩ :
            CommandHistoryEntry)]).length - m.max_history ≤ m.history.length := by
          simp only [List.length_append, List.length_cons, List.length_nil]
          omega
        rw [List.drop_append_of_le_length hle, List.getLast?_concat]
  · exact List.getLast?_concat _

/-- A string whose stripped form is empty is not flagged as natural
language. -/
theorem is_natural_language_of_strip_empty (text : String) (h : pyStrip text = "") :
    SimpleNLPProcessor.is_natural_language text = false := by
  unfold SimpleNLPProcessor.is_natural_language
  rw [h]
  rfl

/-- A string whose stripped form is empty tokenizes to the empty token
list. -/
theorem parse_command_of_strip_empty (text : String) (h : pyStrip text = "") :
    CommandProcessor.parse_command text = [] := by
  unfold CommandProcessor.parse_command
  rw [h]
  rfl

/-! ## Concrete fixtures for witnesses and counterexamples -/

/-- A handler behaving like `pwd`: accepts any arguments, returns the
current directory. -/
def pwdHandler : BaseCommand :=
  ⟨fun _ => true, fun _ ctx => .ok (⟨true, ctx.current_directory, none, 0, 0⟩, ctx)⟩

/-- A registry with one command `pwd` carrying one alias `location`. -/
def cexRegistry : CommandRegistry BaseCommand :=
  ⟨[("pwd", pwdHandler)], [("location", "pwd")]⟩

/-- Processor over `cexRegistry` with the NLP pass enabled. -/
def cexProcessorNlp : CommandProcessor := ⟨cexRegistry, true⟩

/-- Processor over `cexRegistry` with the NLP pass disabled (the
default configuration: `nlp_enabled: False`). -/
def cexProcessorPlain : CommandProcessor := ⟨cexRegistry, false⟩

/-- A session context. -/
def ctx0 : ExecutionContext := ⟨"/root", [], "user", "session", []⟩

/-- An orchestrator state with an empty history and the default cap. -/
def tc0 : TerminalCore := ⟨⟨[], 1000⟩, ctx0⟩

/-- A processor step that always raises, for exercising the
orchestrator's fault conversion. -/
def failingProc : String → ExecutionContext →
    Except String (CommandResult × ExecutionContext) :=
  fun _ _ => .error "boom"

/-! ## Claims -/

/-- C1: For every registered triple `(name, handler, aliases)` — the name
bound to the handler in the command table, not itself shadowed by an
alias binding, with every alias mapped to the name — resolving the
primary name and resolving any of its aliases return the same handler
instance; moreover resolution treats a token as an alias first: a token
bound in the alias table resolves exactly as the primary name it maps to,
whatever direct command binding the token may also have. -/
theorem C1_resolve_alias_and_name_agree {H : Type} (r : CommandRegistry H)
    (name : String) (handler : H) (aliases : List String)
    (hname : dictGet r.commands name = some handler)
    (hshadow : dictGet r.aliases name = none)
    (halias : ∀ a ∈ aliases, dictGet r.aliases a = some name) :
    r.get_handler name = .ok handler ∧
    (∀ a ∈ aliases, r.get_handler a = .ok handler) ∧
    (∀ tok n h2, dictGet r.aliases tok = some n → dictGet r.commands n = some h2 →
      r.get_handler tok = .ok h2) ∧
    (∀ tok h2, dictGet r.aliases tok = none → dictGet r.commands tok = some h2 →
      r.get_handler tok = .ok h2) := by
  refine ⟨?_, ?_, ?_, ?_⟩
  · simp [CommandRegistry.get_handler, hshadow, hname]
  · intro a ha
    simp [CommandRegistry.get_handler, halias a ha, hname]
  · intro tok n h2 htok hn
    simp [CommandRegistry.get_handler, htok, hn]
  · intro tok h2 htok hcmd
    simp [CommandRegistry.get_handler, htok, hcmd]

/-- Witness for C1 on the concrete registry: `pwd` and its alias
`location` resolve to the same handler. -/
theorem C1_witness :
    cexRegistry.get_handler "pwd" = .ok pwdHandler ∧
    cexRegistry.get_handler "location" = .ok pwdHandler := by
  have h := C1_resolve_alias_and_name_agree cexRegistry "pwd" pwdHandler ["location"]
    (by rfl) (by rfl) (by decide)
  exact ⟨h.1, h.2.1 "location" (by decide)⟩

/-- C2: A token that is neither a registered primary name nor a
registered alias: `get_handler` raises `CommandNotFoundError`,
`command_exists` is false, and a `process` invocation whose dispatched
command line starts with such a token returns `success = false` with
exit code 127. -/
theorem C2_unknown_token (r : CommandRegistry BaseCommand) (tok : String)
    (hc : dictGet r.commands tok = none) (ha : dictGet r.aliases tok = none) :
    r.get_handler tok = .error ("Command " ++ tok ++ " not found") ∧
    r.command_exists tok = false ∧
    ∀ (cp : CommandProcessor) (st : StageTimes) (input : String)
      (ctx : ExecutionContext) (clock : Rat) (args : List String),
      cp.command_registry = r →
      CommandProcessor.parse_command (cp.processedInput input) = tok :: args →
      (cp.process st input ctx clock).1.success = false ∧
      (cp.process st input ctx clock).1.exit_code = 127 := by
  refine ⟨?_, ?_, ?_⟩
  · simp [CommandRegistry.get_handler, ha, hc]
  · simp [CommandRegistry.command_exists, ha, hc]
  · intro cp st input ctx clock args hreg hparse
    unfold CommandProcessor.process
    rw [hparse, hreg]
    simp [CommandRegistry.get_handler, ha, hc]

/-- Witness for C2: dispatching the unregistered command `frobnicate`
yields a failure with exit code 127 (and the registry rejects the
token). -/
theorem C2_witness :
    (cexProcessorPlain.process ⟨0, 0, 0, 0, 0⟩ "frobnicate" ctx0 0).1.success = false ∧
    (cexProcessorPlain.process ⟨0, 0, 0, 0, 0⟩ "frobnicate" ctx0 0).1.exit_code = 127 :=
  (C2_unknown_token cexRegistry "frobnicate" (by rfl) (by rfl)).2.2
    cexProcessorPlain ⟨0, 0, 0, 0, 0⟩ "frobnicate" ctx0 0 [] rfl (by rfl)

/-- C3: `execute_command` always returns a `CommandResult` (it is a total
function of the processor step `proc`, however `proc` behaves): the raw
input is recorded in the history manager and appended to the context
history before processing, any fault of the processing step is converted
into a failure result with the generic internal-error message and exit
code 1 (with default `execution_time = 0`), and a normal result is passed
through unchanged.  This holds for every input, including the empty
string, and for every outcome of `proc`. -/
theorem C3_execute_command_never_raises
    (proc : String → ExecutionContext → Except String (CommandResult × ExecutionContext))
    (now : Rat) (cwd : String) (tc : TerminalCore) (input : String) :
    (∃ res tc2, TerminalCore.execute_command proc now cwd tc input = (res, tc2)) ∧
    ((TerminalCore.execute_command proc now cwd tc input).2.history_manager =
      tc.history_manager.add_command input 0 true now cwd) ∧
    (∀ e, proc input { tc.context with history := tc.context.history ++ [input] } =
        .error e →
      TerminalCore.execute_command proc now cwd tc input =
        (⟨false, "", some ("Internal error: " ++ e), 1, 0⟩,
         ⟨tc.history_manager.add_command input 0 true now cwd,
          { tc.context with history := tc.context.history ++ [input] }⟩)) ∧
    (∀ res ctx2,
      proc input { tc.context with history := tc.context.history ++ [input] } =
        .ok (res, ctx2) →
      TerminalCore.execute_command proc now cwd tc input =
        (res, ⟨tc.history_manager.add_command input 0 true now cwd, ctx2⟩)) := by
  refine ⟨?_, ?_, ?_, ?_⟩
  · exact ⟨_, _, rfl⟩
  · unfold TerminalCore.execute_command
    cases h : proc input { tc.context with history := tc.context.history ++ [input] } with
    | ok pr => cases pr with | mk res ctx2 => simp [h]
    | error e => simp [h]
  · intro e he
    simp only [TerminalCore.execute_command]
    rw [he]
  · intro res ctx2 hok
    simp only [TerminalCore.execute_command]
    rw [hok]

/-- Witness for C3: a raising processor step is converted to the generic
internal-error failure result with exit code 1, and the raw input is
still appended to the context history. -/
theorem C3_witness :
    TerminalCore.execute_command failingProc 0 "/root" tc0 "ls" =
      (⟨false, "", some ("Internal error: " ++ "boom"), 1, 0⟩,
       ⟨tc0.history_manager.add_command "ls" 0 true 0 "/root",
        { tc0.context with history := tc0.context.history ++ ["ls"] }⟩) :=
  (C3_execute_command_never_raises failingProc 0 "/root" tc0 "ls").2.2.1 "boom" rfl

/-- C10 (implicit): every history entry recorded by `execute_command`
carries the `add_command` default argument values `success = True` and
`execution_time = 0.0`, whatever the actual outcome of the command,
because the entry is appended before processing. -/
theorem C10_history_entry_uses_defaults
    (proc : String → ExecutionContext → Except String (CommandResult × ExecutionContext))
    (now : Rat) (cwd : String) (tc : TerminalCore) (input : String) :
    ((TerminalCore.execute_command proc now cwd tc input).2.history_manager.history).getLast? =
      some ⟨input, now, 0, true, cwd⟩ := by
  unfold TerminalCore.execute_command
  cases h : proc input { tc.context with history := tc.context.history ++ [input] } with
  | ok pr =>
      cases pr with
      | mk res ctx2 => simpa [h] using add_command_getLast tc.history_manager input 0 true now cwd
  | error e => simpa [h] using add_command_getLast tc.history_manager input 0 true now cwd

/-- C4: Tokenization is total by construction (`parse_command` is a plain
function into token lists); when `shlex` raises on malformed quoting the
result is the naive whitespace split of the stripped input, well-formed
quoting is honored, and the unbalanced example still yields a non-empty
token sequence. -/
theorem C4_tokenize_total_with_fallback :
    (∀ s e, shlexSplit (pyStrip s) = .error e →
      CommandProcessor.parse_command s = pySplitWs (pyStrip s)) ∧
    CommandProcessor.parse_command "echo \x22a b\x22 c" = ["echo", "a b", "c"] ∧
    CommandProcessor.parse_command "echo \x22a" = ["echo", "\x22a"] ∧
    CommandProcessor.parse_command "echo \x22a" ≠ [] := by
  refine ⟨?_, by rfl, by rfl, by decide⟩
  intro s e h
  unfold CommandProcessor.parse_command
  rw [h]

/-- Witness for C4: the fallback conjunct applied at the unbalanced
input. -/
theorem C4_witness :
    CommandProcessor.parse_command "echo \x22a" = pySplitWs (pyStrip "echo \x22a") :=
  C4_tokenize_total_with_fallback.1 "echo \x22a" "No closing quotation" (by rfl)

/-- C5: `translate` lower-cases and trims its input and returns the
template of the first matching rule of the ordered catalogue, with the
captured groups trimmed and substituted positionally (`applyTemplate`);
rules before the first match are all non-matching.  The three spec
examples: folder creation maps to `mkdir logs`, the location question to
`pwd`, and gibberish to no match (so the processor dispatches the
original text unchanged). -/
theorem C5_translate_first_match :
    (∀ q, SimpleNLPProcessor.process_natural_language q =
      firstRule SimpleNLPProcessor.patterns (pyLower (pyStrip q))) ∧
    (∀ (pre rest : List (Pat × String)) (p : Pat) (t q : String) (gs : List String),
      (∀ r ∈ pre, reMatch r.1 q = none) → reMatch p q = some gs →
      firstRule (pre ++ (p, t) :: rest) q = some (applyTemplate t gs)) ∧
    SimpleNLPProcessor.process_natural_language "create a new folder called logs" =
      some "mkdir logs" ∧
    SimpleNLPProcessor.process_natural_language "where am i?" = some "pwd" ∧
    SimpleNLPProcessor.process_natural_language "asdkjhasd" = none ∧
    (∀ cp : CommandProcessor, cp.processedInput "asdkjhasd" = "asdkjhasd") := by
  refine ⟨fun _ => rfl, ?_, by rfl, by rfl, by rfl, ?_⟩
  case refine_2 =>
    intro cp
    unfold CommandProcessor.processedInput
    rw [show SimpleNLPProcessor.is_natural_language "asdkjhasd" = false from rfl]
    simp
  intro pre
  induction pre with
  | nil =>
      intro rest p t q gs _ hm
      simp only [List.nil_append, firstRule, hm]
  | cons r0 pre ih =>
      intro rest p t q gs hpre hm
      obtain ⟨p0, t0⟩ := r0
      have h0 : reMatch p0 q = none := hpre (p0, t0) (List.mem_cons_self _ _)
      simp only [List.cons_append, firstRule, h0]
      exact ih rest p t q gs (fun r hr => hpre r (List.mem_cons_of_mem _ hr)) hm

/-- Witness for C5: the first-match conjunct applied to a one-rule list
with an empty earlier segment. -/
theorem C5_witness :
    firstRule [(Pat.lit "hi", "ls")] "hi" = some (applyTemplate "ls" []) :=
  C5_translate_first_match.2.1 [] [] (Pat.lit "hi") "ls" "hi" []
    (by simp) (by rfl)

/-- Counterexample to C6 as stated: on empty input the result's elapsed
time is the measured wall time of the pipeline up to tokenization
(`time.time() - start_time`), not the constant zero — here the
tokenization stage takes 1 time unit and the reported elapsed time is 1. -/
theorem C6_counterexample :
    pyStrip "" = "" ∧
    (cexProcessorPlain.process ⟨0, 1, 0, 0, 0⟩ "" ctx0 0).1.success = true ∧
    (cexProcessorPlain.process ⟨0, 1, 0, 0, 0⟩ "" ctx0 0).1.execution_time = 1 ∧
    (1 : Rat) ≠ 0 := by
  refine ⟨by rfl, by rfl, ?_, by norm_num⟩
  have h : (cexProcessorPlain.process ⟨0, 1, 0, 0, 0⟩ "" ctx0 0).1.execution_time =
      (0 : Rat) + 1 - 0 := rfl
  rw [h]
  norm_num

/-- C6 as amended: for every input that is empty or whitespace-only
after trimming, `process` returns an immediate success result with empty
output, no error, exit code 0, an unchanged context, and performs no
registry lookup (the result is the same under any registry); its elapsed
time equals the wall time of the tokenization step alone (the NLP pass
does not run on such input) — which is zero exactly when that step
consumes no measurable time, rather than identically zero. -/
theorem C6_empty_input_no_dispatch (cp : CommandProcessor) (st : StageTimes)
    (input : String) (ctx : ExecutionContext) (clock : Rat)
    (hws : pyStrip input = "") :
    (cp.process st input ctx clock).1.success = true ∧
    (cp.process st input ctx clock).1.output = "" ∧
    (cp.process st input ctx clock).1.error_message = none ∧
    (cp.process st input ctx clock).1.exit_code = 0 ∧
    (cp.process st input ctx clock).1.execution_time = st.tokenize ∧
    (cp.process st input ctx clock).2.1 = ctx ∧
    (∀ r2 : CommandRegistry BaseCommand,
      CommandProcessor.process ⟨r2, cp.nlp_processor⟩ st input ctx clock =
        cp.process st input ctx clock) := by
  obtain ⟨r0, b0⟩ := cp
  have hnl : SimpleNLPProcessor.is_natural_language input = false :=
    is_natural_language_of_strip_empty input hws
  have key : ∀ r : CommandRegistry BaseCommand,
      CommandProcessor.process ⟨r, b0⟩ st input ctx clock =
        (⟨true, "", none, 0, st.tokenize⟩, ctx, clock + st.tokenize) := by
    intro r
    have hpi : CommandProcessor.processedInput ⟨r, b0⟩ input = input := by
      unfold CommandProcessor.processedInput
      rw [hnl]
      simp
    have hpc : CommandProcessor.parse_command
        (CommandProcessor.processedInput ⟨r, b0⟩ input) = [] := by
      rw [hpi]
      exact parse_command_of_strip_empty input hws
    simp only [CommandProcessor.process, hnl, Bool.and_false, if_false, hpc]
    simp
  refine ⟨?_, ?_, ?_, ?_, ?_, ?_, ?_⟩ <;>
    simp [key]

/-- Witness for C6 (amended) at a whitespace-only input with a nonzero
tokenization time. -/
theorem C6_witness :
    (cexProcessorPlain.process ⟨2, 3, 4, 5, 6⟩ "   " ctx0 7).1.success = true ∧
    (cexProcessorPlain.process ⟨2, 3, 4, 5, 6⟩ "   " ctx0 7).1.execution_time = 3 :=
  ⟨(C6_empty_input_no_dispatch cexProcessorPlain ⟨2, 3, 4, 5, 6⟩ "   " ctx0 7 (by rfl)).1,
   (C6_empty_input_no_dispatch cexProcessorPlain ⟨2, 3, 4, 5, 6⟩ "   " ctx0 7 (by rfl)).2.2.2.2.1⟩

/-- C7: `add_command` keeps the history within the cap — when the cap is
positive, a history within the cap stays within it — and appending to a
history exactly at capacity drops the oldest entry and keeps the newest
entries in their original relative order followed by the new entry. -/
theorem C7_history_cap_fifo (m : HistoryManager) (command : String)
    (execution_time : Rat) (success : Bool) (now : Rat) (cwd : String) :
    (0 < m.max_history → m.history.length ≤ m.max_history →
      (m.add_command command execution_time success now cwd).history.length ≤
        m.max_history) ∧
    (m.history.length = m.max_history →
      (m.add_command command execution_time success now cwd).history =
        m.history.drop 1 ++ [⟨command, now, execution_time, success, cwd⟩]) := by
  constructor
  · intro hpos hlen
    simp only [HistoryManager.add_command, pyLastSlice]
    split
    · split
      · next hk => omega
      · next hk =>
          simp only [List.length_drop, List.length_append, List.length_cons,
            List.length_nil]
          omega
    · next htrim =>
        simp only [List.length_append, List.length_cons, List.length_nil] at htrim ⊢
        omega
  · intro hlen
    simp only [HistoryManager.add_command, pyLastSlice]
    by_cases hk : m.max_history = 0
    · have hnil : m.history = [] := List.length_eq_zero.mp (by omega)
      rw [hnil]
      simp [hk]
    · have htrim : (m.history ++ [(⟨command, now, execution_time, success, cwd⟩ :
          CommandHistoryEntry)]).length > m.max_history := by
        simp only [List.length_append, List.length_cons, List.length_nil]
        omega
      rw [if_pos htrim, if_neg hk]
      have hone : (m.history ++ [(⟨command, now, execution_time, success, cwd⟩ :
          CommandHistoryEntry)]).length - m.max_history = 1 := by
        simp only [List.length_append, List.length_cons, List.length_nil]
        omega
      rw [hone, List.drop_append_of_le_length (by omega)]

/-- Witness for C7: a history of two entries at cap 2 evicts the oldest
entry on the next append. -/
theorem C7_witness :
    ((⟨[⟨"a", 0, 0, true, "/"⟩, ⟨"b", 1, 0, true, "/"⟩], 2⟩ :
        HistoryManager).add_command "c" 0 true 3 "/").history.length ≤ 2 ∧
    ((⟨[⟨"a", 0, 0, true, "/"⟩, ⟨"b", 1, 0, true, "/"⟩], 2⟩ :
        HistoryManager).add_command "c" 0 true 3 "/").history =
      ([⟨"a", 0, 0, true, "/"⟩, ⟨"b", 1, 0, true, "/"⟩] :
        List CommandHistoryEntry).drop 1 ++ [⟨"c", 3, 0, true, "/"⟩] :=
  ⟨(C7_history_cap_fifo ⟨[⟨"a", 0, 0, true, "/"⟩, ⟨"b", 1, 0, true, "/"⟩], 2⟩
      "c" 0 true 3 "/").1 (by decide) (by decide),
   (C7_history_cap_fifo ⟨[⟨"a", 0, 0, true, "/"⟩, ⟨"b", 1, 0, true, "/"⟩], 2⟩
      "c" 0 true 3 "/").2 (by decide)⟩

/-- Counterexample to C8 as stated: with a translation pass taking 5 time
units and every other stage instantaneous, the elapsed time attached to
the result of a translated invocation is 5, not the duration 0 of steps
2–5 — the timer starts before the natural-language pass. -/
theorem C8_counterexample :
    (cexProcessorNlp.process ⟨5, 0, 0, 0, 0⟩ "where am i?" ctx0 0).1.success = true ∧
    (cexProcessorNlp.process ⟨5, 0, 0, 0, 0⟩ "where am i?" ctx0 0).1.execution_time = 5 ∧
    (StageTimes.tokenize ⟨5, 0, 0, 0, 0⟩ + StageTimes.resolve ⟨5, 0, 0, 0, 0⟩ +
      StageTimes.validate ⟨5, 0, 0, 0, 0⟩ + StageTimes.execute ⟨5, 0, 0, 0, 0⟩ = 0) ∧
    (5 : Rat) ≠ 0 := by
  refine ⟨by rfl, ?_, ?_, by norm_num⟩
  · have h : (cexProcessorNlp.process ⟨5, 0, 0, 0, 0⟩ "where am i?" ctx0 0).1.execution_time =
        (0 : Rat) + 5 + 0 + 0 + 0 + 0 - 0 := rfl
    rw [h]
    norm_num
  · show (0 : Rat) + 0 + 0 + 0 = 0
    norm_num

/-- C8 as amended: the elapsed time attached to every result of
`process` is the full wall-clock span of the invocation — steps 1
through 5, including the natural-language pass when it runs — because
`start_time` is sampled at entry, before translation. -/
theorem C8_elapsed_covers_steps_1_to_5 (cp : CommandProcessor) (st : StageTimes)
    (input : String) (ctx : ExecutionContext) (clock : Rat) :
    (cp.process st input ctx clock).1.execution_time =
      (cp.process st input ctx clock).2.2 - clock := by
  simp only [CommandProcessor.process]
  split
  · rfl
  · split
    · rfl
    · split
      · rfl
      · split
        · rfl
        · rfl

/-- C9: `is_natural_language` returns true exactly when the trimmed,
lower-cased text starts with an interrogative word, or contains a
conversational phrase marker, or contains a space together with at least
one of the common function words (prefix/substring tests, as in the
source lists). -/
theorem C9_natural_language_gate_iff (text : String) :
    SimpleNLPProcessor.is_natural_language text = true ↔
      looksNaturalLanguageSpec text := by
  have h : SimpleNLPProcessor.is_natural_language text =
      (SimpleNLPProcessor.question_words.any
        (fun w => pyStartsWith (pyLower (pyStrip text)) w) ||
       SimpleNLPProcessor.nl_phrases.any
        (fun p => strContains (pyLower (pyStrip text)) p) ||
       (strContains (pyLower (pyStrip text)) " " &&
        SimpleNLPProcessor.function_words.any
          (fun w => strContains (pyLower (pyStrip text)) w))) := by
    unfold SimpleNLPProcessor.is_natural_language
    cases hq : SimpleNLPProcessor.question_words.any
        (fun w => pyStartsWith (pyLower (pyStrip text)) w) <;>
      cases hp : SimpleNLPProcessor.nl_phrases.any
          (fun p => strContains (pyLower (pyStrip text)) p) <;>
        cases hc : (strContains (pyLower (pyStrip text)) " " &&
            SimpleNLPProcessor.function_words.any
              (fun w => strContains (pyLower (pyStrip text)) w)) <;>
          simp [hq, hp, hc]
  rw [h]
  simp only [looksNaturalLanguageSpec, Bool.or_eq_true, Bool.and_eq_true,
    List.any_eq_true, pyStartsWith_iff, strContains_iff]
  exact or_assoc
